import Mathlib

/-!
Verification of the online-auction bidding engine.

Shallow embedding of the TypeScript sources:
- `src/utils/db.ts`        : pure rule functions (increments, premium, floor)
- bidding engine service   : `placeBid`, `executeBidTransaction`,
                             `checkSoftClose`, `getActiveMaxBid`, `closeLot`
- invoice service          : `generateInvoice` line-item and total computation
- `src/services/import.ts` : image-filename parsing and bulk image matching

Monetary amounts are modelled as exact rationals (the source manipulates
JS numbers with `+`, `*`, `Math.min` and comparisons only; none of the
properties below hinges on binary floating-point rounding).  Times are
Unix-epoch seconds modelled as integers.  SQL rows are modelled as lists,
newest row first (the engine reads rows with `ORDER BY created_at DESC`,
and all rows inserted by one transaction share one `created_at`).
JavaScript truthiness tests on nullable numbers (`x ? a : b`, `x || y`)
are modelled explicitly: `none` and `some 0` are falsy.
-/

namespace AuctionPlatform

/-- JS truthiness of a nullable rational (`null` and `0` are falsy). -/
def qTruthy (o : Option ℚ) : Bool :=
  match o with
  | none => false
  | some x => x ≠ 0

/-- JS `a || null` on a nullable rational: collapses `0` to `null`. -/
def orNullQ (o : Option ℚ) : Option ℚ :=
  match o with
  | none => none
  | some x => if x = 0 then none else some x

/-- JS truthiness of a nullable id (`null` and `0` are falsy). -/
def natTruthy (o : Option ℕ) : Bool :=
  match o with
  | none => false
  | some x => x ≠ 0

/-! ## Pure rules (`src/utils/db.ts`) -/

/-- One increment-rule tier `{min, max|null, increment}`. -/
structure IncrementRule where
  min : ℚ
  max : Option ℚ
  increment : ℚ
  deriving DecidableEq, Repr

/-- Whether a tier covers an amount: `amount >= rule.min && (rule.max === null
|| amount < rule.max)`, the loop condition of `calculateBidIncrement`. -/
def ruleCovers (r : IncrementRule) (amount : ℚ) : Bool :=
  amount ≥ r.min && (match r.max with
    | none => true
    | some m => amount < m)

/-- `calculateBidIncrement` (`db.ts` lines 261-271): scan the tiers in list
order, return the increment of the first tier covering `currentBid`, and
fall back to `1` when no tier matches. -/
def calculateBidIncrement (currentBid : ℚ) (rules : List IncrementRule) : ℚ :=
  match rules with
  | [] => 1
  | r :: rest =>
      if ruleCovers r currentBid then r.increment
      else calculateBidIncrement currentBid rest

/-- `getMinimumNextBid` (`db.ts` lines 276-282). -/
def getMinimumNextBid (currentBid : ℚ) (incrementRules : List IncrementRule) : ℚ :=
  currentBid + calculateBidIncrement currentBid incrementRules

/-- One buyer's-premium tier `{min, max|null, rate}`. -/
structure PremiumRule where
  min : ℚ
  max : Option ℚ
  rate : ℚ
  deriving DecidableEq, Repr

/-- Loop condition of `calculateBuyersPremium`. -/
def premiumRuleCovers (r : PremiumRule) (amount : ℚ) : Bool :=
  amount ≥ r.min && (match r.max with
    | none => true
    | some m => amount < m)

/-- `calculateBuyersPremium` (`db.ts` lines 246-256): `amount * rate` of the
first covering tier, `0` when none covers. -/
def calculateBuyersPremium (amount : ℚ) (rules : List PremiumRule) : ℚ :=
  match rules with
  | [] => 0
  | r :: rest =>
      if premiumRuleCovers r amount then amount * r.rate
      else calculateBuyersPremium amount rest

/-! ## Data model -/

inductive LotStatus where
  | pending | active | closed | sold | unsold | withdrawn
  deriving DecidableEq, Repr

inductive BidType where
  | manual | proxy_auto
  deriving DecidableEq, Repr

inductive BidStatus where
  | winning | outbid | won | lost | cancelled
  deriving DecidableEq, Repr

/-- A row of the `bids` table (placement metadata and timestamps omitted;
list position models `created_at` order, newest first). -/
structure BidRow where
  lot_id : ℕ
  bidder_id : Option ℕ
  amount : ℚ
  bid_type : BidType
  max_bid : Option ℚ
  is_max_bid_active : Bool
  is_winning : Bool
  previous_bid_amount : ℚ
  previous_bidder_id : Option ℕ
  status : BidStatus
  deriving DecidableEq, Repr

/-- Event kinds of the `bid_audit_log` table (schema migration and
`src/types/index.ts`). -/
inductive AuditKind where
  | bid_placed | bid_rejected | proxy_triggered | outbid_occurred
  | soft_close_triggered | lot_closed | reserve_met | buy_now_executed
  deriving DecidableEq, Repr

/-- A row of the `bid_audit_log` table (message/metadata omitted). -/
structure AuditEvent where
  event_type : AuditKind
  lot_id : ℕ
  bidder_id : Option ℕ
  previous_amount : Option ℚ
  new_amount : Option ℚ
  deriving DecidableEq, Repr

/-- A row of the `lots` table (fields the engine reads or writes). -/
structure Lot where
  id : ℕ
  auction_id : ℕ
  lot_number : ℕ
  status : LotStatus
  starting_bid : ℚ
  reserve_price : Option ℚ
  reserve_met : Bool
  current_bid : ℚ
  current_bidder_id : Option ℕ
  bid_count : ℕ
  original_close_time : Option ℤ
  current_close_time : Option ℤ
  extension_count : ℕ
  increment_override : Option (List IncrementRule)
  closed_at : Option ℤ
  deriving DecidableEq, Repr

/-- Auction configuration read by the engine (`soft_close_*` columns and the
parsed `increment_rules`). -/
structure AuctionConfig where
  increment_rules : List IncrementRule
  soft_close_enabled : Bool
  soft_close_trigger_minutes : ℤ
  soft_close_extension_minutes : ℤ
  deriving DecidableEq, Repr

/-- Persistent state touched by the engine for one lot: the lot row, its bid
rows (newest first) and the audit log (newest first). -/
structure EngineState where
  lot : Lot
  bids : List BidRow
  audit : List AuditEvent
  deriving DecidableEq, Repr

/-! ## Bidding engine service -/

/-- Result codes returned by the engine (`BidResult.code`). -/
inductive ResultCode where
  | INVALID_AMOUNT | INVALID_MAX_BID | LOT_NOT_FOUND | LOT_NOT_ACTIVE
  | AUCTION_CLOSED | BID_TOO_LOW | SELF_OUTBID | MAX_BID_TIED
  | OUTBID_BY_PROXY | BID_SUCCESS | BID_FAILED
  deriving DecidableEq, Repr

/-- The engine's `BidResult` (message text and lot snapshot omitted;
`minimumBid` and `currentBid` model the extra data fields spread into the
error object by `BID_TOO_LOW` and `OUTBID_BY_PROXY`). -/
structure BidResult where
  success : Bool
  code : ResultCode
  minimumBid : Option ℚ := none
  currentBid : Option ℚ := none
  outbidOccurred : Bool := false
  proxyBidTriggered : Bool := false
  deriving DecidableEq, Repr

/-- `this.error(code, message, data?)`. -/
def errorResult (c : ResultCode) : BidResult :=
  { success := false, code := c }

/-- SQL equality `bidder_id = ?` where the bound parameter may be NULL
(`bidder_id = NULL` matches no row). -/
def sqlEqBidder (rowBidder param : Option ℕ) : Bool :=
  match param with
  | none => false
  | some p => rowBidder = some p

/-- The AUCTION_CLOSED guard
`if (lot.current_close_time && currentTime >= lot.current_close_time)`. -/
def closeTimeBlocks (close : Option ℤ) (t : ℤ) : Bool :=
  match close with
  | none => false
  | some ct => ct ≠ 0 && t ≥ ct

/-- `getActiveMaxBid` (engine lines 541-551): newest bid row of this bidder
on this lot with `is_max_bid_active = 1`, then `bid?.max_bid || null`. -/
def getActiveMaxBid (bids : List BidRow) (lotId bidderId : ℕ) : Option ℚ :=
  orNullQ ((bids.find? fun b =>
    b.lot_id = lotId && b.bidder_id = some bidderId && b.is_max_bid_active)
    |>.bind BidRow.max_bid)

/-- `getIncrementRules` (engine lines 556-572).  The override field and the
auction column hold JSON text; here each is modelled as its parsed value
(`cfg.increment_rules` is the parse result, which is the default tier table
`{0-100:5, 100-500:10, 500-inf:25}` when the column is missing or invalid). -/
def getIncrementRules (cfg : AuctionConfig) (lot : Lot) : List IncrementRule :=
  match lot.increment_override with
  | some rs => rs
  | none => cfg.increment_rules

/-- `createAuditLog` (engine lines 577-612); note the source passes
`newAmount` before `previousAmount`. -/
def createAuditLog (kind : AuditKind) (lot : Lot) (bidderId : Option ℕ)
    (newAmount previousAmount : Option ℚ) : AuditEvent :=
  { event_type := kind, lot_id := lot.id, bidder_id := bidderId,
    previous_amount := previousAmount, new_amount := newAmount }

/-- `UPDATE lots SET ... reserve_met = CASE WHEN reserve_price IS NOT NULL
AND ? >= reserve_price THEN 1 ELSE reserve_met END`. -/
def updateReserveMet (lot : Lot) (newBid : ℚ) : Bool :=
  match lot.reserve_price with
  | some r => if newBid ≥ r then true else lot.reserve_met
  | none => lot.reserve_met

/-- `UPDATE bids SET status = outbid, is_winning = 0, ... WHERE lot_id = ?
AND bidder_id = ? AND is_winning = 1` (scenario 1; keeps `is_max_bid_active`). -/
def markOutbidKeepMax (lotId : ℕ) (prevBidder : Option ℕ)
    (bids : List BidRow) : List BidRow :=
  bids.map fun b =>
    if b.lot_id = lotId ∧ sqlEqBidder b.bidder_id prevBidder ∧ b.is_winning then
      { b with status := .outbid, is_winning := false }
    else b

/-- Same update with `is_max_bid_active = 0` (scenario 2, new-max-wins). -/
def markOutbidExhaustMax (lotId : ℕ) (prevBidder : Option ℕ)
    (bids : List BidRow) : List BidRow :=
  bids.map fun b =>
    if b.lot_id = lotId ∧ sqlEqBidder b.bidder_id prevBidder ∧ b.is_winning then
      { b with status := .outbid, is_winning := false, is_max_bid_active := false }
    else b

/-- `executeBidTransaction` (engine lines 134-481).  The statements queued on
each path are applied in batch order; inserted rows are prepended (newest
first).  On the OUTBID_BY_PROXY path the source builds its insert/update
statements but `return`s on line 453 *before* `await transaction(this.db,
queries)` on line 462, so that path leaves the state unchanged. -/
def executeBidTransaction (lot : Lot) (bidderId : ℕ) (bidAmount : ℚ)
    (maxBid currentHighBidderMaxBid : Option ℚ)
    (incrementRules : List IncrementRule) (st : EngineState) :
    BidResult × EngineState :=
  match currentHighBidderMaxBid with
  | none =>
      -- Scenario 1: no existing max bid - simple bid placement
      let finalBidAmount := bidAmount
      let newRow : BidRow :=
        { lot_id := lot.id, bidder_id := some bidderId, amount := finalBidAmount,
          bid_type := .manual,
          max_bid := if qTruthy maxBid then maxBid else none,
          is_max_bid_active := qTruthy maxBid, is_winning := true,
          previous_bid_amount := lot.current_bid,
          previous_bidder_id := lot.current_bidder_id, status := .winning }
      let newLot : Lot :=
        { st.lot with
          current_bid := finalBidAmount,
          current_bidder_id := some bidderId,
          bid_count := st.lot.bid_count + 1,
          reserve_met := updateReserveMet st.lot finalBidAmount }
      let bids1 := newRow :: st.bids
      let bids2 :=
        if natTruthy lot.current_bidder_id then
          markOutbidKeepMax lot.id lot.current_bidder_id bids1
        else bids1
      let outbidOccurred := natTruthy lot.current_bidder_id
      let ev := createAuditLog .bid_placed lot (some bidderId)
          (some finalBidAmount) (some lot.current_bid)
      ({ success := true, code := .BID_SUCCESS, outbidOccurred := outbidOccurred,
         proxyBidTriggered := false },
       { lot := newLot, bids := bids2, audit := ev :: st.audit })
  | some hmax =>
      -- Scenario 2: existing max bid - proxy bidding competition
      let increment := calculateBidIncrement lot.current_bid incrementRules
      if qTruthy maxBid ∧ maxBid.getD 0 > hmax then
        -- New bidder wins with their max bid vs old max bid + increment
        let finalBidAmount := min (maxBid.getD 0) (hmax + increment)
        let winRow : BidRow :=
          { lot_id := lot.id, bidder_id := some bidderId, amount := finalBidAmount,
            bid_type := .manual, max_bid := maxBid, is_max_bid_active := true,
            is_winning := true, previous_bid_amount := lot.current_bid,
            previous_bidder_id := lot.current_bidder_id, status := .winning }
        let proxyRow : BidRow :=
          { lot_id := lot.id, bidder_id := lot.current_bidder_id, amount := hmax,
            bid_type := .proxy_auto, max_bid := some hmax,
            is_max_bid_active := false, is_winning := false,
            previous_bid_amount := lot.current_bid,
            previous_bidder_id := lot.current_bidder_id, status := .outbid }
        let newLot : Lot :=
          { st.lot with
            current_bid := finalBidAmount,
            current_bidder_id := some bidderId,
            bid_count := st.lot.bid_count + 2,
            reserve_met := updateReserveMet st.lot finalBidAmount }
        let bids2 := markOutbidExhaustMax lot.id lot.current_bidder_id
          (proxyRow :: winRow :: st.bids)
        let evProxy := createAuditLog .proxy_triggered lot lot.current_bidder_id
            (some hmax) (some lot.current_bid)
        let evPlaced := createAuditLog .bid_placed lot (some bidderId)
            (some finalBidAmount) (some hmax)
        ({ success := true, code := .BID_SUCCESS, outbidOccurred := true,
           proxyBidTriggered := true },
         { lot := newLot, bids := bids2, audit := evPlaced :: evProxy :: st.audit })
      else if qTruthy maxBid ∧ maxBid = some hmax then
        -- Tie - first bidder (current high bidder) wins
        (errorResult .MAX_BID_TIED, st)
      else
        -- Current high bidder's max bid is higher - auto-outbid.
        -- The source queues the losing bid, the defending proxy bid, the lot
        -- update and two audit rows, then returns this error BEFORE executing
        -- `transaction(this.db, queries)`: nothing is committed.
        let finalBidAmount :=
          if qTruthy maxBid then min hmax (maxBid.getD 0 + increment)
          else bidAmount + increment
        ({ success := false, code := .OUTBID_BY_PROXY,
           currentBid := some finalBidAmount }, st)

/-- `checkSoftClose` (engine lines 486-536).  Reads the soft-close settings of
the lot's auction; the close-time test uses the lot snapshot captured at the
start of `placeBid`. -/
def checkSoftClose (cfg : AuctionConfig) (lotSnapshot : Lot) (currentTime : ℤ)
    (st : EngineState) : EngineState :=
  match lotSnapshot.current_close_time with
  | none => st
  | some ct =>
      if ct = 0 then st      -- JS: `if (!lot.current_close_time) return`
      else if ¬ cfg.soft_close_enabled then st
      else
        let timeUntilClose := ct - currentTime
        let triggerSeconds := cfg.soft_close_trigger_minutes * 60
        if timeUntilClose ≤ triggerSeconds then
          let extensionSeconds := cfg.soft_close_extension_minutes * 60
          let newCloseTime := currentTime + extensionSeconds
          { lot := { st.lot with
                       current_close_time := some newCloseTime,
                       extension_count := st.lot.extension_count + 1 },
            bids := st.bids,
            audit := { event_type := .soft_close_triggered,
                       lot_id := lotSnapshot.id, bidder_id := none,
                       previous_amount := some (ct : ℚ),
                       new_amount := some ((newCloseTime : ℤ) : ℚ) } :: st.audit }
        else st

/-- `placeBid` (engine lines 41-129).  Validations run in source order, each
failure returning without touching the state; then `executeBidTransaction`
runs, and `checkSoftClose` runs on every result it returns (including
MAX_BID_TIED and OUTBID_BY_PROXY, which return rather than throw). -/
def placeBid (cfg : AuctionConfig) (st : EngineState) (bidderId : ℕ)
    (amount : ℚ) (maxBid : Option ℚ) (currentTime : ℤ) :
    BidResult × EngineState :=
  if amount ≤ 0 then (errorResult .INVALID_AMOUNT, st)
  else if qTruthy maxBid ∧ maxBid.getD 0 < amount then
    (errorResult .INVALID_MAX_BID, st)
  else
    let lot := st.lot
    if lot.status ≠ .active then (errorResult .LOT_NOT_ACTIVE, st)
    else if closeTimeBlocks lot.current_close_time currentTime then
      (errorResult .AUCTION_CLOSED, st)
    else
      let incrementRules := getIncrementRules cfg lot
      let minimumBid :=
        if lot.current_bid > 0 then
          getMinimumNextBid lot.current_bid incrementRules
        else lot.starting_bid
      if amount < minimumBid then
        ({ errorResult .BID_TOO_LOW with minimumBid := some minimumBid }, st)
      else if lot.current_bidder_id = some bidderId then
        (errorResult .SELF_OUTBID, st)
      else
        let currentHighBidderMaxBid :=
          if natTruthy lot.current_bidder_id then
            getActiveMaxBid st.bids lot.id (lot.current_bidder_id.getD 0)
          else none
        let step := executeBidTransaction lot bidderId amount maxBid
          currentHighBidderMaxBid incrementRules st
        (step.1, checkSoftClose cfg lot currentTime step.2)

/-- `closeLot` (engine lines 629-678).  Note: no guard on `lot.status`, and
the final status ignores `current_bidder_id`. -/
def closeLot (st : EngineState) (t : ℤ) : EngineState :=
  let lot := st.lot
  let status :=
    if qTruthy lot.reserve_price ∧ ¬ lot.reserve_met then LotStatus.unsold
    else LotStatus.sold
  let newLot := { lot with status := status, closed_at := some t }
  let bids1 :=
    if natTruthy lot.current_bidder_id ∧ status = .sold then
      st.bids.map fun b =>
        if b.lot_id = lot.id ∧ sqlEqBidder b.bidder_id lot.current_bidder_id ∧
            b.is_winning then
          { b with status := .won }
        else b
    else st.bids
  let bids2 := bids1.map fun b =>
    if b.lot_id = lot.id ∧ b.status ≠ .won ∧ b.status ≠ .cancelled then
      { b with status := .lost }
    else b
  let ev : AuditEvent :=
    { event_type := .lot_closed, lot_id := lot.id,
      bidder_id := lot.current_bidder_id, previous_amount := none,
      new_amount := some lot.current_bid }
  { lot := newLot, bids := bids2, audit := ev :: st.audit }

/-! ## Invoice service (`generateInvoice`) -/

/-- A row of the `invoice_items` table (lot identity fields omitted). -/
structure InvoiceItem where
  winning_bid : ℚ
  premium_rate : ℚ
  premium_amount : ℚ
  tax_rate : ℚ
  tax_amount : ℚ
  shipping_amount : ℚ
  line_total : ℚ
  deriving DecidableEq, Repr

/-- A row of the `invoices` table (monetary fields). -/
structure Invoice where
  subtotal : ℚ
  premium : ℚ
  tax : ℚ
  shipping : ℚ
  total : ℚ
  items : List InvoiceItem
  deriving DecidableEq, Repr

/-- The rate-lookup loop inside `generateInvoice` (invoice service lines
124-130): rate of the first covering premium tier, `0` when none covers. -/
def premiumRateOf (amount : ℚ) (rules : List PremiumRule) : ℚ :=
  match rules with
  | [] => 0
  | r :: rest =>
      if premiumRuleCovers r amount then r.rate
      else premiumRateOf amount rest

/-- One iteration of the lot loop in `generateInvoice` (lines 119-153):
premium via `calculateBuyersPremium`, tax on `winningBid + premium`,
shipping hard-coded `0` (`lot.lot_shipping && shippingAvailable ? 0 : 0`,
a TODO in the source).  No rounding is applied anywhere. -/
def invoiceLine (winningBid : ℚ) (rules : List PremiumRule)
    (taxEnabled : Bool) (taxRate : ℚ) : InvoiceItem :=
  let buyersPremium := calculateBuyersPremium winningBid rules
  let buyersPremiumRate := premiumRateOf winningBid rules
  let taxAmount := if taxEnabled then (winningBid + buyersPremium) * taxRate else 0
  let shippingAmount : ℚ := 0
  { winning_bid := winningBid, premium_rate := buyersPremiumRate,
    premium_amount := buyersPremium, tax_rate := taxRate,
    tax_amount := taxAmount, shipping_amount := shippingAmount,
    line_total := winningBid + buyersPremium + taxAmount + shippingAmount }

/-- `generateInvoice` (invoice service lines 100-155) for one bidder, given
the winning bids of their lots in list order.  The source accumulates
`subtotal`, `totalBuyersPremium`, `totalTax`, `totalShipping` across the lot
loop and sets `total = subtotal + totalBuyersPremium + totalTax +
totalShipping`; accumulation is modelled as the sum over the item list. -/
def generateInvoice (winningBids : List ℚ) (rules : List PremiumRule)
    (taxEnabled : Bool) (taxRate : ℚ) : Invoice :=
  let items := winningBids.map fun b => invoiceLine b rules taxEnabled taxRate
  let subtotal := (items.map InvoiceItem.winning_bid).sum
  let premium := (items.map InvoiceItem.premium_amount).sum
  let tax := (items.map InvoiceItem.tax_amount).sum
  let shipping := (items.map InvoiceItem.shipping_amount).sum
  { subtotal := subtotal, premium := premium, tax := tax, shipping := shipping,
    total := subtotal + premium + tax + shipping, items := items }

/-- Modelled from the spec (the source applies no rounding): round half-up
to cents, for comparison against the code's unrounded amounts. -/
def specRoundHalfUpCents (q : ℚ) : ℚ :=
  (⌊q * 100 + 1 / 2⌋ : ℤ) / 100

/-! ## Importer (`src/services/import.ts`) -/

/-- Extensions stripped by `/\.(jpg|jpeg|png|gif|webp|heic)$/i`. -/
def imageExtensions : List String := ["jpg", "jpeg", "png", "gif", "webp", "heic"]

/-- `filename.replace(/\.(jpg|jpeg|png|gif|webp|heic)$/i, "")`; the
case-insensitive suffix test is expressed on the character list (lowercasing
a string is mapping `Char.toLower` over its characters). -/
def stripExtension (filename : String) : String :=
  match imageExtensions.find? (fun e =>
      ("." ++ e).data.isSuffixOf (filename.data.map Char.toLower)) with
  | some e => filename.dropRight (e.length + 1)
  | none => filename

/-- Greedy run of decimal digits with its value (`acc` is the value of the
digits already consumed). -/
def digitsVal (acc : ℕ) : List Char → ℕ × List Char
  | [] => (acc, [])
  | c :: cs =>
      if c.isDigit then digitsVal (acc * 10 + (c.toNat - 48)) cs
      else (acc, c :: cs)

/-- `\d+` at the head of the input: its value and the rest, or `none`. -/
def takeDigits (cs : List Char) : Option (ℕ × List Char) :=
  match cs with
  | [] => none
  | c :: rest =>
      if c.isDigit then some (digitsVal (c.toNat - 48) rest)
      else none

/-- Anchored pattern `^(\d+)<sep>(\d+)$` (patterns 1, 3 and 4 of
`parseImageFilename`, with separator `-`, `_` or `.`). -/
def matchNumSepNum (sep : Char) (cs : List Char) : Option (ℕ × ℕ) :=
  match takeDigits cs with
  | none => none
  | some (a, rest) =>
      match rest with
      | [] => none
      | c :: rest2 =>
          if c = sep then
            match takeDigits rest2 with
            | some (b, []) => some (a, b)
            | _ => none
          else none

/-- Tail `(\d+)[_-](\d+)$` of pattern 2. -/
def matchLotTail (cs : List Char) : Option (ℕ × ℕ) :=
  match takeDigits cs with
  | none => none
  | some (_, []) => none
  | some (a, c :: rest) =>
      if c = '_' ∨ c = '-' then
        match takeDigits rest with
        | some (b, []) => some (a, b)
        | _ => none
      else none

/-- Anchored pattern 2 `^lot[_-]?(\d+)[_-](\d+)$` on the lowercased name
(the source compiles it with the `i` flag).  When the character after `lot`
is `_` or `-` the optional `[_-]?` must consume it, since `\d+` cannot. -/
def matchLotPattern (cs : List Char) : Option (ℕ × ℕ) :=
  match cs with
  | 'l' :: 'o' :: 't' :: rest =>
      (match rest with
       | [] => none
       | c :: rest2 =>
           if c = '_' ∨ c = '-' then matchLotTail rest2
           else matchLotTail rest)
  | _ => none

/-- `parseImageFilename` (`import.ts` lines 329-352): strip the extension,
then try the four anchored patterns in order. -/
def parseImageFilename (filename : String) : Option (ℕ × ℕ) :=
  let name := stripExtension filename
  let cs := name.data
  match matchNumSepNum '-' cs with
  | some r => some r
  | none =>
  match matchLotPattern (name.data.map Char.toLower) with
  | some r => some r
  | none =>
  match matchNumSepNum '_' cs with
  | some r => some r
  | none => matchNumSepNum '.' cs

inductive MatchStatus where
  | matched | unmatched | conflict
  deriving DecidableEq, Repr

/-- Per-file outcome of `processBulkImages`. -/
structure ImageMatchResult where
  filename : String
  lotNumber : Option ℕ
  photoOrder : Option ℕ
  status : MatchStatus
  deriving DecidableEq, Repr

/-- `processBulkImages` (`import.ts` lines 194-323): each file is processed
independently against the auction's `lot_number -> id` map (stored URLs and
the inserted `image_mappings` rows are omitted; they carry the same status).
The loop body never assigns the `conflict` status and the outcome of a file
does not depend on files processed before it. -/
def processBulkImages (lotMap : List (ℕ × ℕ)) (images : List String) :
    List ImageMatchResult :=
  images.map fun filename =>
    match parseImageFilename filename with
    | some (lotNumber, photoOrder) =>
        match lotMap.find? (fun p => p.1 = lotNumber) with
        | some _ =>
            { filename := filename, lotNumber := some lotNumber,
              photoOrder := some photoOrder, status := .matched }
        | none =>
            { filename := filename, lotNumber := some lotNumber,
              photoOrder := some photoOrder, status := .unmatched }
    | none =>
        { filename := filename, lotNumber := none, photoOrder := none,
          status := .unmatched }

/-! ## Concrete fixtures (the literal scenarios of spec section 8) -/

/-- Single increment tier `{0+: 10}` (spec scenarios 2-4). -/
def tierTen : List IncrementRule := [{ min := 0, max := none, increment := 10 }]

/-- Auction with soft close disabled. -/
def cfgPlain : AuctionConfig :=
  { increment_rules := tierTen, soft_close_enabled := false,
    soft_close_trigger_minutes := 5, soft_close_extension_minutes := 5 }

/-- Soft close enabled, trigger 10 min, extension 20 min. -/
def cfgSoftWide : AuctionConfig :=
  { increment_rules := tierTen, soft_close_enabled := true,
    soft_close_trigger_minutes := 10, soft_close_extension_minutes := 20 }

/-- Soft close enabled, trigger 10 min but extension only 2 min. -/
def cfgSoftNarrow : AuctionConfig :=
  { increment_rules := tierTen, soft_close_enabled := true,
    soft_close_trigger_minutes := 10, soft_close_extension_minutes := 2 }

/-- U1 (id 1) holds the winning manual bid with max bid 200 active. -/
def rowMax200 : BidRow :=
  { lot_id := 1, bidder_id := some 1, amount := 50, bid_type := .manual,
    max_bid := some 200, is_max_bid_active := true, is_winning := true,
    previous_bid_amount := 0, previous_bidder_id := none, status := .winning }

/-- Lot defended by U1's proxy at `current_bid = 50` (spec scenario 2). -/
def lotAt50 : Lot :=
  { id := 1, auction_id := 1, lot_number := 1, status := .active,
    starting_bid := 0, reserve_price := none, reserve_met := false,
    current_bid := 50, current_bidder_id := some 1, bid_count := 1,
    original_close_time := some 10000, current_close_time := some 10000,
    extension_count := 0, increment_override := none, closed_at := none }

def stAt50 : EngineState := { lot := lotAt50, bids := [rowMax200], audit := [] }

/-- The same lot later at `current_bid = 70` (spec scenarios 3 and 4). -/
def lotAt70 : Lot := { lotAt50 with current_bid := 70, bid_count := 3 }

def stAt70 : EngineState := { lot := lotAt70, bids := [rowMax200], audit := [] }

/-- `lotAt70` closing at time 1000, for soft-close interaction. -/
def stTie : EngineState :=
  { lot := { lotAt70 with current_close_time := some 1000 },
    bids := [rowMax200], audit := [] }

/-- A fresh active lot with `starting_bid = 10`, closing at 1000 (= original). -/
def lotFresh : Lot :=
  { id := 1, auction_id := 1, lot_number := 1, status := .active,
    starting_bid := 10, reserve_price := none, reserve_met := false,
    current_bid := 0, current_bidder_id := none, bid_count := 0,
    original_close_time := some 1000, current_close_time := some 1000,
    extension_count := 0, increment_override := none, closed_at := none }

def stFresh : EngineState := { lot := lotFresh, bids := [], audit := [] }

/-- An active lot with no bids, no reserve and no bidder. -/
def stNoBids : EngineState :=
  { lot := { lotFresh with starting_bid := 100 }, bids := [], audit := [] }

/-- `lotAt70` with an increment override whose parsed rule list is empty,
so no tier covers any amount. -/
def lotGap : Lot := { lotAt70 with increment_override := some [] }

def stGap : EngineState := { lot := lotGap, bids := [rowMax200], audit := [] }

/-- The bid floor as the spec words it: `starting_bid` when the lot has no
bids (the engine tests `current_bid > 0`, equivalent under invariant I-L2),
else `current_bid` plus the step of the first tier in list order with
`min <= current_bid < (max or infinity)` (`1` when no tier covers).  Written
with `List.find?` to match the spec's "first match wins" phrasing; compared
against the engine's scan in the C4 theorem. -/
def specFloor (cfg : AuctionConfig) (lot : Lot) : ℚ :=
  if lot.current_bid > 0 then
    lot.current_bid +
      (match (getIncrementRules cfg lot).find?
          (fun r => ruleCovers r lot.current_bid) with
       | some r => r.increment
       | none => 1)
  else lot.starting_bid

/-- 15 percent premium on every amount (spec scenario 7). -/
def premium15 : List PremiumRule := [{ min := 0, max := none, rate := 15 / 100 }]

/-- Winning bids 100.00 and 250.55 (spec scenario 7). -/
def exampleBids : List ℚ := [100, 25055 / 100]

/-! ## General lemmas about the embedded definitions -/

/-- The increment loop returns the increment of the first covering tier in
list order, `1` when no tier covers. -/
theorem calculateBidIncrement_eq_find (c : ℚ) (rules : List IncrementRule) :
    calculateBidIncrement c rules =
      match rules.find? (fun r => ruleCovers r c) with
      | some r => r.increment
      | none => 1 := by
  induction rules with
  | nil => rfl
  | cons r rest ih =>
      by_cases h : ruleCovers r c
      · simp [calculateBidIncrement, List.find?, h]
      · simp [calculateBidIncrement, List.find?, h, ih]

/-- When no tier covers, the increment falls back to `1`. -/
theorem calculateBidIncrement_eq_one (c : ℚ) (rules : List IncrementRule)
    (h : ∀ r ∈ rules, ruleCovers r c = false) :
    calculateBidIncrement c rules = 1 := by
  rw [calculateBidIncrement_eq_find]
  have : rules.find? (fun r => ruleCovers r c) = none := by
    rw [List.find?_eq_none]
    intro r hr
    simp [h r hr]
  rw [this]

/-- The premium loop and the rate-lookup loop scan the same tiers, so the
premium is always `amount * rate`. -/
theorem calculateBuyersPremium_eq_mul_rate (a : ℚ) (rules : List PremiumRule) :
    calculateBuyersPremium a rules = a * premiumRateOf a rules := by
  induction rules with
  | nil => simp [calculateBuyersPremium, premiumRateOf]
  | cons r rest ih =>
      by_cases h : premiumRuleCovers r a
      · simp [calculateBuyersPremium, premiumRateOf, h]
      · simp [calculateBuyersPremium, premiumRateOf, h, ih]

/-- `checkSoftClose` never touches the bid rows nor the lot's bidding
snapshot (`current_bid`, `current_bidder_id`, `bid_count`, `status`). -/
theorem checkSoftClose_preserves (cfg : AuctionConfig) (snap : Lot)
    (t : ℤ) (st : EngineState) :
    (checkSoftClose cfg snap t st).bids = st.bids ∧
    (checkSoftClose cfg snap t st).lot.current_bid = st.lot.current_bid ∧
    (checkSoftClose cfg snap t st).lot.current_bidder_id =
      st.lot.current_bidder_id ∧
    (checkSoftClose cfg snap t st).lot.bid_count = st.lot.bid_count ∧
    (checkSoftClose cfg snap t st).lot.status = st.lot.status := by
  unfold checkSoftClose
  rcases snap.current_close_time with _ | ct
  · exact ⟨rfl, rfl, rfl, rfl, rfl⟩
  · dsimp only
    split_ifs <;> exact ⟨rfl, rfl, rfl, rfl, rfl⟩

/-- Outcome analysis of `executeBidTransaction`: success, or a MAX_BID_TIED
rejection leaving the state untouched, or an OUTBID_BY_PROXY result leaving
the state untouched because the queued statements are never executed. -/
theorem executeBidTransaction_cases (lot : Lot) (bidderId : ℕ)
    (bidAmount : ℚ) (maxBid chm : Option ℚ) (rules : List IncrementRule)
    (st : EngineState) :
    ((executeBidTransaction lot bidderId bidAmount maxBid chm rules st).1.code =
        ResultCode.BID_SUCCESS ∧
     (executeBidTransaction lot bidderId bidAmount maxBid chm rules st).1.success
        = true) ∨
    ((executeBidTransaction lot bidderId bidAmount maxBid chm rules st).1.code =
        ResultCode.MAX_BID_TIED ∧
     (executeBidTransaction lot bidderId bidAmount maxBid chm rules st).2 = st) ∨
    ((executeBidTransaction lot bidderId bidAmount maxBid chm rules st).1.code =
        ResultCode.OUTBID_BY_PROXY ∧
     (executeBidTransaction lot bidderId bidAmount maxBid chm rules st).2 = st) := by
  unfold executeBidTransaction
  rcases chm with _ | hmax
  · left; exact ⟨rfl, rfl⟩
  · dsimp only
    split_ifs <;> simp [errorResult]

/-- Outcome analysis of `placeBid`: a validation failure returns the state
untouched; MAX_BID_TIED and OUTBID_BY_PROXY commit nothing but still run the
soft-close check; otherwise the bid succeeds. -/
theorem placeBid_cases (cfg : AuctionConfig) (st : EngineState)
    (bidderId : ℕ) (amount : ℚ) (maxBid : Option ℚ) (t : ℤ) :
    ((placeBid cfg st bidderId amount maxBid t).1.code ∈
        [ResultCode.INVALID_AMOUNT, ResultCode.INVALID_MAX_BID,
         ResultCode.LOT_NOT_ACTIVE, ResultCode.AUCTION_CLOSED,
         ResultCode.BID_TOO_LOW, ResultCode.SELF_OUTBID] ∧
     (placeBid cfg st bidderId amount maxBid t).2 = st) ∨
    ((placeBid cfg st bidderId amount maxBid t).1.code ∈
        [ResultCode.MAX_BID_TIED, ResultCode.OUTBID_BY_PROXY] ∧
     (placeBid cfg st bidderId amount maxBid t).2 =
        checkSoftClose cfg st.lot t st) ∨
    ((placeBid cfg st bidderId amount maxBid t).1.code =
        ResultCode.BID_SUCCESS ∧
     (placeBid cfg st bidderId amount maxBid t).1.success = true) := by
  by_cases hnt : natTruthy st.lot.current_bidder_id
  · unfold placeBid
    dsimp only
    simp only [hnt, if_true]
    split_ifs
    all_goals try (left; exact ⟨by simp [errorResult], rfl⟩)
    all_goals (
      rcases executeBidTransaction_cases st.lot bidderId amount maxBid
          (getActiveMaxBid st.bids st.lot.id (st.lot.current_bidder_id.getD 0))
          (getIncrementRules cfg st.lot) st with
        ⟨hc, hs⟩ | ⟨hc, hs⟩ | ⟨hc, hs⟩)
    all_goals first
      | (right; right; exact ⟨hc, hs⟩)
      | (right; left; rw [hc, hs]; simp)
  · unfold placeBid
    dsimp only
    rw [if_neg hnt]
    split_ifs
    all_goals try (left; exact ⟨by simp [errorResult], rfl⟩)
    all_goals (
      rcases executeBidTransaction_cases st.lot bidderId amount maxBid none
          (getIncrementRules cfg st.lot) st with
        ⟨hc, hs⟩ | ⟨hc, hs⟩ | ⟨hc, hs⟩)
    all_goals first
      | (right; right; exact ⟨hc, hs⟩)
      | (right; left; rw [hc, hs]; simp)

/-- Committed bid transactions never write `current_close_time`. -/
theorem executeBidTransaction_close_time (lot : Lot) (bidderId : ℕ)
    (bidAmount : ℚ) (maxBid chm : Option ℚ) (rules : List IncrementRule)
    (st : EngineState) :
    (executeBidTransaction lot bidderId bidAmount maxBid chm rules st).2.lot.current_close_time
      = st.lot.current_close_time := by
  unfold executeBidTransaction
  rcases chm with _ | hmax
  · rfl
  · dsimp only
    split_ifs <;> rfl

/-- `checkSoftClose` leaves the bid rows unchanged. -/
theorem checkSoftClose_bids (cfg : AuctionConfig) (snap : Lot) (t : ℤ)
    (st : EngineState) : (checkSoftClose cfg snap t st).bids = st.bids :=
  (checkSoftClose_preserves cfg snap t st).1

/-- `checkSoftClose` leaves `current_bid` unchanged. -/
theorem checkSoftClose_current_bid (cfg : AuctionConfig) (snap : Lot) (t : ℤ)
    (st : EngineState) :
    (checkSoftClose cfg snap t st).lot.current_bid = st.lot.current_bid :=
  (checkSoftClose_preserves cfg snap t st).2.1

/-- `checkSoftClose` leaves `current_bidder_id` unchanged. -/
theorem checkSoftClose_current_bidder (cfg : AuctionConfig) (snap : Lot) (t : ℤ)
    (st : EngineState) :
    (checkSoftClose cfg snap t st).lot.current_bidder_id =
      st.lot.current_bidder_id :=
  (checkSoftClose_preserves cfg snap t st).2.2.1

/-- `checkSoftClose` leaves `bid_count` unchanged. -/
theorem checkSoftClose_bid_count (cfg : AuctionConfig) (snap : Lot) (t : ℤ)
    (st : EngineState) :
    (checkSoftClose cfg snap t st).lot.bid_count = st.lot.bid_count :=
  (checkSoftClose_preserves cfg snap t st).2.2.2.1

/-- When the extension is at least the trigger window, a soft-close check can
only move the close time forward. -/
theorem checkSoftClose_mono (cfg : AuctionConfig) (snap : Lot) (t : ℤ)
    (st : EngineState) (c : ℤ)
    (hext : cfg.soft_close_trigger_minutes ≤ cfg.soft_close_extension_minutes)
    (hsnap : snap.current_close_time = some c)
    (hst : st.lot.current_close_time = some c) :
    ∃ c2, (checkSoftClose cfg snap t st).lot.current_close_time = some c2 ∧
      c ≤ c2 := by
  unfold checkSoftClose
  rw [hsnap]
  dsimp only
  split_ifs with h0 hen htrig
  all_goals try exact ⟨c, hst, le_refl c⟩
  refine ⟨t + cfg.soft_close_extension_minutes * 60, rfl, ?_⟩
  have h60 : cfg.soft_close_trigger_minutes * 60 ≤
      cfg.soft_close_extension_minutes * 60 :=
    mul_le_mul_of_nonneg_right hext (by norm_num)
  linarith

/-- The state after `placeBid` is either the input state (validation
failure) or a soft-close check applied to a state with the same close time
(every path through `executeBidTransaction`). -/
theorem placeBid_state_shape (cfg : AuctionConfig) (st : EngineState)
    (bidderId : ℕ) (amount : ℚ) (maxBid : Option ℚ) (t : ℤ) :
    (placeBid cfg st bidderId amount maxBid t).2 = st ∨
    ∃ st2, st2.lot.current_close_time = st.lot.current_close_time ∧
      (placeBid cfg st bidderId amount maxBid t).2 =
        checkSoftClose cfg st.lot t st2 := by
  unfold placeBid
  dsimp only
  split_ifs
  all_goals try (left; rfl)
  all_goals
    right
    refine ⟨_, ?_, rfl⟩
    apply executeBidTransaction_close_time

/-- `closeLot` never writes `current_close_time` or `original_close_time`. -/
theorem closeLot_close_time (st : EngineState) (t : ℤ) :
    (closeLot st t).lot.current_close_time = st.lot.current_close_time ∧
    (closeLot st t).lot.original_close_time = st.lot.original_close_time := by
  unfold closeLot
  exact ⟨rfl, rfl⟩

/-- The floor check of `placeBid`: once the input, status and time guards
pass, a bid below the minimum is rejected as BID_TOO_LOW reporting that
minimum and leaving the state untouched, and a bid at or above it is never
rejected as BID_TOO_LOW. -/
theorem placeBid_floor_check (cfg : AuctionConfig) (st : EngineState)
    (bidderId : ℕ) (amount : ℚ) (maxBid : Option ℚ) (t : ℤ)
    (hamt : 0 < amount)
    (hmb : ¬(qTruthy maxBid ∧ maxBid.getD 0 < amount))
    (hact : st.lot.status = LotStatus.active)
    (hopen : closeTimeBlocks st.lot.current_close_time t = false) :
    (amount < (if st.lot.current_bid > 0 then
          getMinimumNextBid st.lot.current_bid (getIncrementRules cfg st.lot)
        else st.lot.starting_bid) →
      placeBid cfg st bidderId amount maxBid t =
        ({ errorResult ResultCode.BID_TOO_LOW with
            minimumBid := some (if st.lot.current_bid > 0 then
              getMinimumNextBid st.lot.current_bid (getIncrementRules cfg st.lot)
            else st.lot.starting_bid) }, st)) ∧
    ((if st.lot.current_bid > 0 then
          getMinimumNextBid st.lot.current_bid (getIncrementRules cfg st.lot)
        else st.lot.starting_bid) ≤ amount →
      (placeBid cfg st bidderId amount maxBid t).1.code ≠
        ResultCode.BID_TOO_LOW) := by
  unfold placeBid
  dsimp only
  have g3 : ¬(st.lot.status ≠ LotStatus.active) := by simp [hact]
  have g4 : ¬(closeTimeBlocks st.lot.current_close_time t = true) := by
    simp [hopen]
  rw [if_neg (not_le.mpr hamt), if_neg hmb, if_neg g3, if_neg g4]
  constructor
  · intro hlt
    rw [if_pos hlt]
  · intro hge
    rw [if_neg (not_lt.mpr hge)]
    split_ifs with hself hnt
    · simp [errorResult]
    · rcases executeBidTransaction_cases st.lot bidderId amount maxBid
          (getActiveMaxBid st.bids st.lot.id (st.lot.current_bidder_id.getD 0))
          (getIncrementRules cfg st.lot) st with
        ⟨hc, _⟩ | ⟨hc, _⟩ | ⟨hc, _⟩ <;> simp [hc]
    · rcases executeBidTransaction_cases st.lot bidderId amount maxBid none
          (getIncrementRules cfg st.lot) st with
        ⟨hc, _⟩ | ⟨hc, _⟩ | ⟨hc, _⟩ <;> simp [hc]

/-- A soft-close-only state change appends no audit event of any other
kind. -/
theorem checkSoftClose_countP (cfg : AuctionConfig) (snap : Lot) (t : ℤ)
    (st : EngineState) (k : AuditKind)
    (hk : k ≠ AuditKind.soft_close_triggered) :
    (checkSoftClose cfg snap t st).audit.countP
        (fun e => e.event_type == k) =
      st.audit.countP (fun e => e.event_type == k) := by
  unfold checkSoftClose
  rcases snap.current_close_time with _ | ct
  · rfl
  · dsimp only
    split_ifs <;> simp [List.countP_cons, Ne.symm hk]

/-- The sum of line totals splits into the four accumulated sums. -/
theorem sum_line_total (l : List ℚ) (rules : List PremiumRule)
    (taxEnabled : Bool) (taxRate : ℚ) :
    ((l.map fun b => invoiceLine b rules taxEnabled taxRate).map
        InvoiceItem.line_total).sum =
      ((l.map fun b => invoiceLine b rules taxEnabled taxRate).map
        InvoiceItem.winning_bid).sum +
      ((l.map fun b => invoiceLine b rules taxEnabled taxRate).map
        InvoiceItem.premium_amount).sum +
      ((l.map fun b => invoiceLine b rules taxEnabled taxRate).map
        InvoiceItem.tax_amount).sum +
      ((l.map fun b => invoiceLine b rules taxEnabled taxRate).map
        InvoiceItem.shipping_amount).sum := by
  induction l with
  | nil => simp
  | cons b bs ih =>
      simp only [List.map_cons, List.sum_cons, ih]
      show (invoiceLine b rules taxEnabled taxRate).line_total + _ = _
      simp only [invoiceLine]
      ring

/-- Rewrite for evaluating guards of the form `none = some n`. -/
theorem none_eq_some_iff_false (n : ℕ) :
    ((none : Option ℕ) = some n) = False := by simp

/-! ## Claim theorems -/

/-- C1: the claim says a `place_bid` call that loses to a covering proxy max
bid still commits two Bid rows, moves the lot to the defended amount with
`bid_count + 2`, logs the events and returns OUTBID_BY_PROXY.  The code does
return OUTBID_BY_PROXY (reporting the defended amount 70 at the spec's own
scenario: U1 winning at 50 with max 200 active, step 10, U2 bids 60 with no
max), but `executeBidTransaction` returns this error before ever executing
`transaction(this.db, queries)`, so nothing is committed: the state comes
back unchanged - no Bid rows inserted, lot untouched, no audit events. -/
theorem C1_outbid_by_proxy_commits_nothing :
    (placeBid cfgPlain stAt50 2 60 none 100).1.code =
      ResultCode.OUTBID_BY_PROXY ∧
    (placeBid cfgPlain stAt50 2 60 none 100).1.currentBid = some 70 ∧
    (placeBid cfgPlain stAt50 2 60 none 100).2 = stAt50 ∧
    (placeBid cfgPlain stAt50 2 60 none 100).2.audit = [] := by
  norm_num [placeBid, executeBidTransaction, checkSoftClose, cfgPlain, stAt50,
    lotAt50, rowMax200, errorResult, qTruthy, natTruthy, orNullQ,
    getActiveMaxBid, getIncrementRules, getMinimumNextBid,
    calculateBidIncrement, ruleCovers, closeTimeBlocks, tierTen, List.find?]

/-- C2 (counterexample): the claim says every policy/validation rejection
writes exactly one `bid_rejected` audit event and changes nothing else, in
particular no soft-close extension.  Both parts fail on the code: a
BID_TOO_LOW rejection (bid 55 against floor 60) writes zero audit events,
and a MAX_BID_TIED rejection inside the soft-close window still extends
`current_close_at` from 1000 to 1700 because `placeBid` runs
`checkSoftClose` on the MAX_BID_TIED result. -/
theorem C2_counterexample :
    (placeBid cfgPlain stAt50 4 55 none 100).1.code =
      ResultCode.BID_TOO_LOW ∧
    (placeBid cfgPlain stAt50 4 55 none 100).2 = stAt50 ∧
    stAt50.audit = [] ∧
    (placeBid cfgSoftWide stTie 4 100 (some 200) 500).1.code =
      ResultCode.MAX_BID_TIED ∧
    stTie.lot.current_close_time = some 1000 ∧
    (placeBid cfgSoftWide stTie 4 100 (some 200) 500).2.lot.current_close_time
      = some 1700 ∧
    (placeBid cfgSoftWide stTie 4 100 (some 200) 500).2.audit.map
        AuditEvent.event_type = [AuditKind.soft_close_triggered] := by
  norm_num [placeBid, executeBidTransaction, checkSoftClose, cfgPlain,
    cfgSoftWide, stAt50, stTie, lotAt50, lotAt70, rowMax200, errorResult,
    qTruthy, natTruthy, orNullQ, getActiveMaxBid, getIncrementRules,
    getMinimumNextBid, calculateBidIncrement, ruleCovers, closeTimeBlocks,
    tierTen, List.find?]

/-- C2 (amended): every `place_bid` rejection with one of the listed codes
inserts no Bid rows, leaves `current_bid` / `current_bidder_id` /
`bid_count` unchanged and writes no `bid_rejected` audit event (none exists
anywhere in the engine); all codes except MAX_BID_TIED leave the state
entirely untouched, while a MAX_BID_TIED rejection still runs the
soft-close check, which may extend `current_close_at` and append a
`soft_close_triggered` event. -/
theorem C2_rejection_writes_no_audit (cfg : AuctionConfig) (st : EngineState)
    (bidderId : ℕ) (amount : ℚ) (maxBid : Option ℚ) (t : ℤ)
    (h : (placeBid cfg st bidderId amount maxBid t).1.code ∈
      [ResultCode.INVALID_AMOUNT, ResultCode.INVALID_MAX_BID,
       ResultCode.LOT_NOT_ACTIVE, ResultCode.AUCTION_CLOSED,
       ResultCode.BID_TOO_LOW, ResultCode.SELF_OUTBID,
       ResultCode.MAX_BID_TIED]) :
    ((placeBid cfg st bidderId amount maxBid t).2 = st ∨
     ((placeBid cfg st bidderId amount maxBid t).1.code =
        ResultCode.MAX_BID_TIED ∧
      (placeBid cfg st bidderId amount maxBid t).2 =
        checkSoftClose cfg st.lot t st)) ∧
    (placeBid cfg st bidderId amount maxBid t).2.bids = st.bids ∧
    (placeBid cfg st bidderId amount maxBid t).2.lot.current_bid =
      st.lot.current_bid ∧
    (placeBid cfg st bidderId amount maxBid t).2.lot.current_bidder_id =
      st.lot.current_bidder_id ∧
    (placeBid cfg st bidderId amount maxBid t).2.lot.bid_count =
      st.lot.bid_count ∧
    (placeBid cfg st bidderId amount maxBid t).2.audit.countP
        (fun e => e.event_type == AuditKind.bid_rejected) =
      st.audit.countP (fun e => e.event_type == AuditKind.bid_rejected) := by
  rcases placeBid_cases cfg st bidderId amount maxBid t with
    ⟨_, hs⟩ | ⟨hm, hs⟩ | ⟨hc, _⟩
  · rw [hs]
    exact ⟨Or.inl rfl, rfl, rfl, rfl, rfl, rfl⟩
  · simp only [List.mem_cons, List.not_mem_nil, or_false] at hm
    have hcode : (placeBid cfg st bidderId amount maxBid t).1.code =
        ResultCode.MAX_BID_TIED := by
      rcases hm with h1 | h1
      · exact h1
      · rw [h1] at h
        simp at h
    refine ⟨Or.inr ⟨hcode, hs⟩, ?_, ?_, ?_, ?_, ?_⟩
    · rw [hs, checkSoftClose_bids]
    · rw [hs, checkSoftClose_current_bid]
    · rw [hs, checkSoftClose_current_bidder]
    · rw [hs, checkSoftClose_bid_count]
    · rw [hs]
      exact checkSoftClose_countP cfg st.lot t st AuditKind.bid_rejected
        (by decide)
  · rw [hc] at h
    simp at h

/-- Witness for C2 (amended): a concrete BID_TOO_LOW rejection leaves the
bid rows and the `bid_rejected` audit count unchanged. -/
theorem C2_rejection_writes_no_audit_witness :
    (placeBid cfgPlain stAt50 4 55 none 100).2.bids = stAt50.bids ∧
    (placeBid cfgPlain stAt50 4 55 none 100).2.audit.countP
        (fun e => e.event_type == AuditKind.bid_rejected) =
      stAt50.audit.countP (fun e => e.event_type == AuditKind.bid_rejected) := by
  have h := C2_rejection_writes_no_audit cfgPlain stAt50 4 55 none 100 (by
    norm_num [placeBid, executeBidTransaction, checkSoftClose, cfgPlain,
      stAt50, lotAt50, rowMax200, errorResult, qTruthy, natTruthy, orNullQ,
      getActiveMaxBid, getIncrementRules, getMinimumNextBid,
      calculateBidIncrement, ruleCovers, closeTimeBlocks, tierTen,
      List.find?])
  exact ⟨h.2.1, h.2.2.2.2.2⟩

/-- C3: when the incumbent high bidder `prev` holds an active max bid
`hmax` and a valid challenger supplies `max_bid = m > hmax`, the challenger
becomes high bidder at `min(m, hmax + step)`: the engine commits a winning
manual Bid row for the challenger at that amount with the max bid stored
and active, a non-winning proxy Bid row for `prev` at `hmax` with
`max_bid_active` already false (cap exhausted, and the previous winning row
is also marked outbid with its max deactivated), and the lot ends with
`current_bid = min(m, hmax + step)`, `current_bidder_id` = challenger and
`bid_count + 2`. -/
theorem C3_higher_max_overtakes (cfg : AuctionConfig) (st : EngineState)
    (bidderId prev : ℕ) (amount m hmax : ℚ) (t : ℤ)
    (hamt : 0 < amount) (hm : amount ≤ m)
    (hact : st.lot.status = LotStatus.active)
    (hopen : closeTimeBlocks st.lot.current_close_time t = false)
    (hfloor : (if st.lot.current_bid > 0 then
        getMinimumNextBid st.lot.current_bid (getIncrementRules cfg st.lot)
      else st.lot.starting_bid) ≤ amount)
    (hprev : st.lot.current_bidder_id = some prev) (hprev0 : prev ≠ 0)
    (hne : bidderId ≠ prev)
    (hactive : getActiveMaxBid st.bids st.lot.id prev = some hmax)
    (hgt : hmax < m) :
    (placeBid cfg st bidderId amount (some m) t).1.code =
      ResultCode.BID_SUCCESS ∧
    (placeBid cfg st bidderId amount (some m) t).2.lot.current_bid =
      min m (hmax +
        calculateBidIncrement st.lot.current_bid (getIncrementRules cfg st.lot)) ∧
    (placeBid cfg st bidderId amount (some m) t).2.lot.current_bidder_id =
      some bidderId ∧
    (placeBid cfg st bidderId amount (some m) t).2.lot.bid_count =
      st.lot.bid_count + 2 ∧
    (placeBid cfg st bidderId amount (some m) t).2.bids =
      { lot_id := st.lot.id, bidder_id := some prev, amount := hmax,
        bid_type := BidType.proxy_auto, max_bid := some hmax,
        is_max_bid_active := false, is_winning := false,
        previous_bid_amount := st.lot.current_bid,
        previous_bidder_id := some prev, status := BidStatus.outbid } ::
      { lot_id := st.lot.id, bidder_id := some bidderId,
        amount := min m (hmax +
          calculateBidIncrement st.lot.current_bid (getIncrementRules cfg st.lot)),
        bid_type := BidType.manual, max_bid := some m,
        is_max_bid_active := true, is_winning := true,
        previous_bid_amount := st.lot.current_bid,
        previous_bidder_id := some prev, status := BidStatus.winning } ::
      markOutbidExhaustMax st.lot.id (some prev) st.bids := by
  have hv1 : ¬(amount ≤ 0) := not_le.mpr hamt
  have hm0 : m ≠ 0 := ne_of_gt (lt_of_lt_of_le hamt hm)
  have hv2 : ¬(qTruthy (some m) ∧ (some m : Option ℚ).getD 0 < amount) := by
    rintro ⟨-, hlt⟩
    rw [Option.getD_some] at hlt
    exact absurd hlt (not_lt.mpr hm)
  have hv3 : ¬(st.lot.status ≠ LotStatus.active) := by simp [hact]
  have hv4 : ¬(closeTimeBlocks st.lot.current_close_time t = true) := by
    simp [hopen]
  have hv5 : ¬(amount < (if st.lot.current_bid > 0 then
      getMinimumNextBid st.lot.current_bid (getIncrementRules cfg st.lot)
    else st.lot.starting_bid)) := not_lt.mpr hfloor
  have hv6 : ¬(st.lot.current_bidder_id = some bidderId) := by
    rw [hprev]
    simp only [Option.some.injEq]
    exact fun hh => hne hh.symm
  have hnt : natTruthy st.lot.current_bidder_id = true := by
    rw [hprev]
    simp [natTruthy, hprev0]
  have hq : qTruthy (some m) = true := by simp [qTruthy, hm0]
  unfold placeBid
  dsimp only
  rw [if_neg hv1, if_neg hv2, if_neg hv3, if_neg hv4, if_neg hv5, if_neg hv6,
    if_pos hnt, hprev, Option.getD_some, hactive]
  unfold executeBidTransaction
  dsimp only
  rw [if_pos ⟨hq, by rw [Option.getD_some]; exact hgt⟩]
  refine ⟨rfl, ?_, ?_, ?_, ?_⟩
  · rw [checkSoftClose_current_bid]
    simp
  · rw [checkSoftClose_current_bidder]
  · rw [checkSoftClose_bid_count]
  · rw [checkSoftClose_bids]
    simp only [markOutbidExhaustMax, List.map_cons, hprev]
    simp [sqlEqBidder, hne, Option.getD_some]

/-- Witness for C3: spec scenario 3 - U1 holds max 200 at current bid 70
with step 10; U3 bids 80 with max 300 and wins at `min(300, 210) = 210`
with `bid_count` going from 3 to 5. -/
theorem C3_higher_max_overtakes_witness :
    (placeBid cfgPlain stAt70 3 80 (some 300) 100).1.code =
      ResultCode.BID_SUCCESS ∧
    (placeBid cfgPlain stAt70 3 80 (some 300) 100).2.lot.current_bid = 210 ∧
    (placeBid cfgPlain stAt70 3 80 (some 300) 100).2.lot.bid_count = 5 := by
  have h := C3_higher_max_overtakes cfgPlain stAt70 3 1 80 300 200 100
    (by norm_num) (by norm_num) rfl (by decide)
    (by norm_num [stAt70, lotAt70, lotAt50, getIncrementRules,
      getMinimumNextBid, calculateBidIncrement, ruleCovers, tierTen, cfgPlain])
    rfl (by decide) (by decide) (by decide) (by decide)
  refine ⟨h.1, ?_, h.2.2.2.1⟩
  rw [h.2.1]
  norm_num [stAt70, lotAt70, lotAt50, getIncrementRules,
    calculateBidIncrement, ruleCovers, tierTen, cfgPlain]

/-- C5 (counterexample): the claim says `current_close_at` never decreases
and stays at least `original_close_at`.  The soft-close branch sets
`current_close_at = now + extension` unconditionally, so with a trigger
window (10 min) larger than the extension (2 min) an accepted bid at
`t = 500` against close time 1000 moves the close time back to 620, below
both the previous close time and `original_close_at = 1000`. -/
theorem C5_counterexample :
    stFresh.lot.original_close_time = some 1000 ∧
    stFresh.lot.current_close_time = some 1000 ∧
    (placeBid cfgSoftNarrow stFresh 1 10 none 500).1.code =
      ResultCode.BID_SUCCESS ∧
    (placeBid cfgSoftNarrow stFresh 1 10 none 500).2.lot.current_close_time
      = some 620 ∧
    (620 : ℤ) < 1000 := by
  norm_num [placeBid, executeBidTransaction, checkSoftClose, cfgSoftNarrow,
    stFresh, lotFresh, errorResult, qTruthy, natTruthy, orNullQ,
    getActiveMaxBid, getIncrementRules, getMinimumNextBid,
    calculateBidIncrement, ruleCovers, closeTimeBlocks, tierTen, List.find?,
    updateReserveMet, createAuditLog, none_eq_some_iff_false]

/-- C5 (amended): provided the auction's soft-close extension is at least
its trigger window, `current_close_at` never decreases across any engine
operation: every `place_bid` call (including soft-close extensions, which
then satisfy `now + extension >= old close`) can only move a set close time
forward, hence it also stays at or above any `original_close_at` it already
dominated, and `closeLot` never touches either close time. -/
theorem C5_close_time_never_decreases (cfg : AuctionConfig)
    (st : EngineState) (bidderId : ℕ) (amount : ℚ) (maxBid : Option ℚ)
    (t : ℤ) (c : ℤ)
    (hext : cfg.soft_close_trigger_minutes ≤ cfg.soft_close_extension_minutes)
    (hc : st.lot.current_close_time = some c) :
    (∃ c2, (placeBid cfg st bidderId amount maxBid t).2.lot.current_close_time
        = some c2 ∧ c ≤ c2 ∧
      ∀ o : ℤ, st.lot.original_close_time = some o → o ≤ c → o ≤ c2) ∧
    (closeLot st t).lot.current_close_time = some c ∧
    (closeLot st t).lot.original_close_time = st.lot.original_close_time := by
  refine ⟨?_, ?_, (closeLot_close_time st t).2⟩
  · rcases placeBid_state_shape cfg st bidderId amount maxBid t with
      hs | ⟨st2, h2, hs⟩
    · refine ⟨c, ?_, le_refl c, fun o _ hoc => hoc⟩
      rw [hs, hc]
    · rw [hs]
      obtain ⟨c2, hcc, hle⟩ := checkSoftClose_mono cfg st.lot t st2 c hext hc
        (by rw [h2, hc])
      exact ⟨c2, hcc, hle, fun o _ hoc => le_trans hoc hle⟩
  · rw [(closeLot_close_time st t).1, hc]

/-- Witness for C5 (amended): trigger 10 min and extension 20 min, close
time 1000, a winning proxy-overtake bid at 500 moves the close time forward
to 1700. -/
theorem C5_close_time_never_decreases_witness :
    (placeBid cfgSoftWide stTie 4 100 (some 300) 500).2.lot.current_close_time
      = some 1700 ∧ (1000 : ℤ) ≤ 1700 := by
  have h := C5_close_time_never_decreases cfgSoftWide stTie 4 100 (some 300)
    500 1000 (by decide) rfl
  obtain ⟨c2, h1, h2, -⟩ := h.1
  have hval : (placeBid cfgSoftWide stTie 4 100 (some 300)
      500).2.lot.current_close_time = some 1700 := by
    norm_num [placeBid, executeBidTransaction, checkSoftClose, cfgSoftWide,
      stTie, lotAt70, lotAt50, rowMax200, errorResult, qTruthy, natTruthy,
      orNullQ, getActiveMaxBid, getIncrementRules, getMinimumNextBid,
      calculateBidIncrement, ruleCovers, closeTimeBlocks, tierTen,
      List.find?, updateReserveMet, createAuditLog, markOutbidExhaustMax,
      sqlEqBidder]
  rw [hval] at h1
  injection h1 with hh
  subst hh
  exact ⟨hval, h2⟩

/-- C4: once the input, status and time guards pass, the engine checks the
bid against exactly the spec's floor `min_next_bid(current, starting,
rules)` - `starting_bid` when `current_bid = 0` (no bids, I-L2), else
`current_bid` plus the step of the first tier in list order covering it: a
bid below the floor is rejected as BID_TOO_LOW reporting the floor and
changing nothing, and a bid at or above the floor (in particular exactly at
it) is never rejected as BID_TOO_LOW. -/
theorem C4_floor_boundary (cfg : AuctionConfig) (st : EngineState)
    (bidderId : ℕ) (amount : ℚ) (maxBid : Option ℚ) (t : ℤ)
    (hamt : 0 < amount)
    (hmb : ¬(qTruthy maxBid ∧ maxBid.getD 0 < amount))
    (hact : st.lot.status = LotStatus.active)
    (hopen : closeTimeBlocks st.lot.current_close_time t = false) :
    (amount < specFloor cfg st.lot →
      placeBid cfg st bidderId amount maxBid t =
        ({ errorResult ResultCode.BID_TOO_LOW with
            minimumBid := some (specFloor cfg st.lot) }, st)) ∧
    (specFloor cfg st.lot ≤ amount →
      (placeBid cfg st bidderId amount maxBid t).1.code ≠
        ResultCode.BID_TOO_LOW) := by
  have key : (if st.lot.current_bid > 0 then
      getMinimumNextBid st.lot.current_bid (getIncrementRules cfg st.lot)
    else st.lot.starting_bid) = specFloor cfg st.lot := by
    unfold specFloor getMinimumNextBid
    rw [calculateBidIncrement_eq_find]
  have h := placeBid_floor_check cfg st bidderId amount maxBid t hamt hmb
    hact hopen
  rw [key] at h
  exact h

/-- Witness for C4: floor 80 at current bid 70 with step 10 - a bid of 75
is rejected as BID_TOO_LOW reporting 80, and a bid of exactly 80 is not. -/
theorem C4_floor_boundary_witness :
    (placeBid cfgPlain stAt70 4 75 none 100).1.code =
      ResultCode.BID_TOO_LOW ∧
    (placeBid cfgPlain stAt70 4 75 none 100).1.minimumBid = some 80 ∧
    (placeBid cfgPlain stAt70 4 80 none 100).1.code ≠
      ResultCode.BID_TOO_LOW := by
  have hfloor : specFloor cfgPlain stAt70.lot = 80 := by
    norm_num [specFloor, stAt70, lotAt70, lotAt50, getIncrementRules,
      ruleCovers, tierTen, cfgPlain, List.find?]
  have h75 := C4_floor_boundary cfgPlain stAt70 4 75 none 100 (by norm_num)
    (by simp [qTruthy]) rfl (by decide)
  have h80 := C4_floor_boundary cfgPlain stAt70 4 80 none 100 (by norm_num)
    (by simp [qTruthy]) rfl (by decide)
  have hr := h75.1 (by rw [hfloor]; norm_num)
  rw [hr]
  exact ⟨rfl, by rw [hfloor], h80.2 (by rw [hfloor])⟩

/-- C6: the claim (and spec section 4.5) says a closed lot is `sold` only
when `current_bidder_id` is set, so a lot with no bids closes `unsold`.
`closeLot` computes the status as
`lot.reserve_price && !lot.reserve_met ? unsold : sold`, ignoring
`current_bidder_id`: an active lot with zero bids, no bidder and no reserve
closes as `sold`. -/
theorem C6_lot_without_bids_closes_sold :
    stNoBids.lot.current_bidder_id = none ∧
    stNoBids.lot.bid_count = 0 ∧
    stNoBids.lot.reserve_price = none ∧
    (closeLot stNoBids 2000).lot.status = LotStatus.sold := by
  norm_num [closeLot, stNoBids, lotFresh, qTruthy, natTruthy, sqlEqBidder]

/-- C7: the claim (and spec section 4.5) says `close_lot` no-ops on an
already-closed lot and emits `lot_closed` exactly once per lot.  `closeLot`
never checks `lot.status`: a second call re-runs the whole close and
appends a second `lot_closed` audit event, so double close is observably
different from a single close. -/
theorem C7_close_lot_not_idempotent :
    (closeLot stNoBids 2000).lot.status ≠ LotStatus.active ∧
    (closeLot stNoBids 2000).audit.map AuditEvent.event_type =
      [AuditKind.lot_closed] ∧
    (closeLot (closeLot stNoBids 2000) 2000).audit.map AuditEvent.event_type =
      [AuditKind.lot_closed, AuditKind.lot_closed] ∧
    closeLot (closeLot stNoBids 2000) 2000 ≠ closeLot stNoBids 2000 := by
  norm_num [closeLot, stNoBids, lotFresh, qTruthy, natTruthy, sqlEqBidder]
  decide

/-- C8 (counterexample): the claim says each line's `premium_amount` is
rounded half-up to cents, with the literal example `250.55 x 15%` giving
`37.58` and total `403.13`.  The invoice code never rounds: it stores the
raw product `37.5825` and total `403.1325`. -/
theorem C8_counterexample :
    (generateInvoice exampleBids premium15 false 0).items.map
        InvoiceItem.premium_amount = [15, 375825 / 10000] ∧
    specRoundHalfUpCents (25055 / 100 * (15 / 100)) = 3758 / 100 ∧
    (375825 / 10000 : ℚ) ≠ 3758 / 100 ∧
    (generateInvoice exampleBids premium15 false 0).total = 4031325 / 10000 ∧
    (4031325 / 10000 : ℚ) ≠ 40313 / 100 := by
  refine ⟨?_, ?_, by norm_num, ?_, by norm_num⟩
  · norm_num [generateInvoice, invoiceLine, exampleBids, premium15,
      calculateBuyersPremium, premiumRateOf, premiumRuleCovers]
  · unfold specRoundHalfUpCents
    have hfl : ⌊(25055 / 100 * (15 / 100) : ℚ) * 100 + 1 / 2⌋ = (3758 : ℤ) := by
      rw [Int.floor_eq_iff]
      constructor <;> norm_num
    rw [hfl]
    norm_num
  · norm_num [generateInvoice, invoiceLine, exampleBids, premium15,
      calculateBuyersPremium, premiumRateOf, premiumRuleCovers]

/-- C8 (amended): the invoice computation applies no rounding: every line's
`premium_amount` is exactly `winning_bid * premium_rate` (the first-match
tier rate, so the example's 250.55 at 15 percent is stored as 37.5825, not
37.58), `line_total` is exactly the sum of its four components, and the
invoice totals satisfy `total = subtotal + premium + tax + shipping`
exactly over the unrounded rationals, which also equals the sum of the line
totals. -/
theorem C8_invoice_identity_unrounded (winningBids : List ℚ)
    (rules : List PremiumRule) (taxEnabled : Bool) (taxRate : ℚ) :
    (generateInvoice winningBids rules taxEnabled taxRate).total =
      (generateInvoice winningBids rules taxEnabled taxRate).subtotal +
        (generateInvoice winningBids rules taxEnabled taxRate).premium +
        (generateInvoice winningBids rules taxEnabled taxRate).tax +
        (generateInvoice winningBids rules taxEnabled taxRate).shipping ∧
    (generateInvoice winningBids rules taxEnabled taxRate).total =
      ((generateInvoice winningBids rules taxEnabled taxRate).items.map
        InvoiceItem.line_total).sum ∧
    ∀ it ∈ (generateInvoice winningBids rules taxEnabled taxRate).items,
      it.premium_amount = it.winning_bid * it.premium_rate ∧
      it.line_total = it.winning_bid + it.premium_amount + it.tax_amount +
        it.shipping_amount := by
  refine ⟨rfl, ?_, ?_⟩
  · simp only [generateInvoice]
    exact (sum_line_total winningBids rules taxEnabled taxRate).symm
  · intro it hit
    simp only [generateInvoice] at hit
    obtain ⟨b, -, rfl⟩ := List.mem_map.mp hit
    exact ⟨calculateBuyersPremium_eq_mul_rate b rules, rfl⟩

/-- Witness for C8 (amended): at the spec's example the total equals the
sum of the line totals and the second line's premium is the exact product
of bid and rate. -/
theorem C8_invoice_identity_unrounded_witness :
    (generateInvoice exampleBids premium15 false 0).total =
      ((generateInvoice exampleBids premium15 false 0).items.map
        InvoiceItem.line_total).sum ∧
    (invoiceLine (25055 / 100) premium15 false 0).premium_amount =
      (invoiceLine (25055 / 100) premium15 false 0).winning_bid *
        (invoiceLine (25055 / 100) premium15 false 0).premium_rate := by
  have h := C8_invoice_identity_unrounded exampleBids premium15 false 0
  refine ⟨h.2.1, ?_⟩
  have hm : invoiceLine (25055 / 100) premium15 false 0 ∈
      (generateInvoice exampleBids premium15 false 0).items := by
    simp [generateInvoice, exampleBids]
  exact (h.2.2 _ hm).1

/-- C10: when no increment tier covers the lot's `current_bid` (empty rule
list or a gap between tiers), `calculateBidIncrement` falls back to the
hard-coded step 1 rather than erroring or consulting the default tier
table, so for a lot with at least one bid the engine's floor becomes
`current_bid + 1`: smaller bids are rejected BID_TOO_LOW reporting
`current_bid + 1` and bids at the floor are not. -/
theorem C10_uncovered_rules_fallback_one (cfg : AuctionConfig)
    (st : EngineState) (bidderId : ℕ) (amount : ℚ) (t : ℤ)
    (hamt : 0 < amount)
    (hact : st.lot.status = LotStatus.active)
    (hopen : closeTimeBlocks st.lot.current_close_time t = false)
    (hpos : st.lot.current_bid > 0)
    (hno : ∀ r ∈ getIncrementRules cfg st.lot,
      ruleCovers r st.lot.current_bid = false) :
    calculateBidIncrement st.lot.current_bid (getIncrementRules cfg st.lot)
      = 1 ∧
    getMinimumNextBid st.lot.current_bid (getIncrementRules cfg st.lot) =
      st.lot.current_bid + 1 ∧
    (amount < st.lot.current_bid + 1 →
      placeBid cfg st bidderId amount none t =
        ({ errorResult ResultCode.BID_TOO_LOW with
            minimumBid := some (st.lot.current_bid + 1) }, st)) ∧
    (st.lot.current_bid + 1 ≤ amount →
      (placeBid cfg st bidderId amount none t).1.code ≠
        ResultCode.BID_TOO_LOW) := by
  have hinc := calculateBidIncrement_eq_one st.lot.current_bid
    (getIncrementRules cfg st.lot) hno
  have hmin : getMinimumNextBid st.lot.current_bid
      (getIncrementRules cfg st.lot) = st.lot.current_bid + 1 := by
    unfold getMinimumNextBid
    rw [hinc]
  have hmb : ¬(qTruthy (none : Option ℚ) ∧
      (none : Option ℚ).getD 0 < amount) := by simp [qTruthy]
  have h := placeBid_floor_check cfg st bidderId amount none t hamt hmb
    hact hopen
  rw [if_pos hpos, hmin] at h
  exact ⟨hinc, hmin, h.1, h.2⟩

/-- Witness for C10: a lot at current bid 70 whose override parses to an
empty rule list - a bid of 70.5 is rejected with reported minimum 71. -/
theorem C10_uncovered_rules_fallback_one_witness :
    calculateBidIncrement stGap.lot.current_bid
      (getIncrementRules cfgPlain stGap.lot) = 1 ∧
    (placeBid cfgPlain stGap 4 (141 / 2) none 100).1.code =
      ResultCode.BID_TOO_LOW ∧
    (placeBid cfgPlain stGap 4 (141 / 2) none 100).1.minimumBid =
      some 71 := by
  have h := C10_uncovered_rules_fallback_one cfgPlain stGap 4 (141 / 2) 100
    (by norm_num) rfl (by decide) (by decide)
    (by
      intro r hr
      simp [getIncrementRules, stGap, lotGap, lotAt70, lotAt50] at hr)
  have h2 := h.2.2.1 (by norm_num [stGap, lotGap, lotAt70, lotAt50])
  rw [h2]
  refine ⟨h.1, rfl, ?_⟩
  norm_num [stGap, lotGap, lotAt70, lotAt50]

/-- C9: the claim (and the import docstring) says that when two parsed
filenames target the same `(lot, photo_order)` the second gets status
`conflict`.  The loop in `processBulkImages` processes each file
independently and never assigns `conflict`: on the spec's own batch the
duplicate second `12-1.jpg` comes back `matched` like the first. -/
theorem C9_duplicate_image_matched_not_conflict :
    (processBulkImages [(12, 101)]
        ["12-1.jpg", "lot_12_2.PNG", "12.3.webp", "foo.jpg", "12-1.jpg"]).map
        ImageMatchResult.status =
      [MatchStatus.matched, MatchStatus.matched, MatchStatus.matched,
       MatchStatus.unmatched, MatchStatus.matched] ∧
    MatchStatus.matched ≠ MatchStatus.conflict := by decide

end AuctionPlatform
